import Mathlib

/-!
Shallow embedding of the WebSocket 3D tic-tac-toe server (server.js).

Conventions of the embedding:
* JavaScript strings are Lean `String`; the empty cell is the empty string,
  as in the source.
* A board is the JS value built by the nested Array(3).fill().map calls of
  the source (3 layers of 3 rows of 3 empty-string cells), embedded as a
  nested `List (List (List String))`.
* Reading `board[l][r][c]` with possibly out-of-range or non-integer indices
  follows JS semantics: an out-of-range or non-index subscript on an array
  yields `undefined` (here `Option.none`), and subscripting `undefined`
  itself throws a TypeError (here `Except.error ()`).
* The `rooms` and `playerConnections` Maps are association lists with
  JS `Map` set/get/delete semantics (`set` overwrites in place).
* Object identity of player objects (used by the broadcast exclusion test
  `player !== excludePlayer`) is embedded by giving each player a fresh
  numeric id `pid` drawn from a counter in the server state.
* Outbound `ws.send` calls and the scheduled `setTimeout` broadcast are
  collected as a list of `Effect`s; handlers return the new state plus
  that list.
-/

/-- A cell coordinate `(layer, row, col)` as pushed into the winning table. -/
abbrev Coord := Nat × Nat × Nat

/-- A winning line: the source pushes 3-element coordinate arrays. -/
abbrev Line := List Coord

/-- The board value: `board[layer][row][col]`, a string per cell, `""` = empty. -/
abbrev JsBoard := List (List (List String))

/-- Block 1 of the table: rows in each layer (source lines 22-26). -/
def inLayerRows : List Line :=
  (List.range 3).flatMap (fun layer =>
    (List.range 3).map (fun row =>
      [(layer, row, 0), (layer, row, 1), (layer, row, 2)]))

/-- Block 2: columns in each layer (source lines 29-33). -/
def inLayerCols : List Line :=
  (List.range 3).flatMap (fun layer =>
    (List.range 3).map (fun col =>
      [(layer, 0, col), (layer, 1, col), (layer, 2, col)]))

/-- Block 3: the two diagonals in each layer (source lines 36-39). -/
def inLayerDiags : List Line :=
  (List.range 3).flatMap (fun layer =>
    [[(layer, 0, 0), (layer, 1, 1), (layer, 2, 2)],
     [(layer, 0, 2), (layer, 1, 1), (layer, 2, 0)]])

/-- Block 4: vertical lines through the layers (source lines 42-46). -/
def crossLayerVerticals : List Line :=
  (List.range 3).flatMap (fun row =>
    (List.range 3).map (fun col =>
      [(0, row, col), (1, row, col), (2, row, col)]))

/-- Block 5a: layer-to-layer diagonals with fixed column (source lines 49-52). -/
def crossLayerColDiags : List Line :=
  (List.range 3).flatMap (fun col =>
    [[(0, 0, col), (1, 1, col), (2, 2, col)],
     [(0, 2, col), (1, 1, col), (2, 0, col)]])

/-- Block 5b: layer-to-layer diagonals with fixed row (source lines 54-57). -/
def crossLayerRowDiags : List Line :=
  (List.range 3).flatMap (fun row =>
    [[(0, row, 0), (1, row, 1), (2, row, 2)],
     [(0, row, 2), (1, row, 1), (2, row, 0)]])

/-- Block 6: the four space diagonals (source lines 60-63). -/
def spaceDiagonals : List Line :=
  [[(0, 0, 0), (1, 1, 1), (2, 2, 2)],
   [(0, 0, 2), (1, 1, 1), (2, 2, 0)],
   [(0, 2, 0), (1, 1, 1), (2, 0, 2)],
   [(0, 2, 2), (1, 1, 1), (2, 0, 0)]]

/-- The full table built by `checkWin`, in push order (source lines 19-63). -/
def winningCombinations : List Line :=
  inLayerRows ++ inLayerCols ++ inLayerDiags ++
  crossLayerVerticals ++ crossLayerColDiags ++ crossLayerRowDiags ++
  spaceDiagonals

/-- Reading `board[l][r][c]` at in-table (natural) coordinates; the table
coordinates are always 0..2 and room boards are always 3x3x3, so the read
is embedded with `Option` (`none` would be JS `undefined`). -/
def cellAt (b : JsBoard) (l r c : Nat) : Option String :=
  ((b.get? l).bind (fun la => la.get? r)).bind (fun ro => ro.get? c)

/-- The per-line test of source line 67: values.every of the predicate that
val is identical to player and val is not the empty string. -/
def lineMatches (b : JsBoard) (player : String) (combo : Line) : Bool :=
  (combo.map (fun x => cellAt b x.1 x.2.1 x.2.2)).all
    (fun val => val == some player && val != some "")

/-- Result object returned by a successful `checkWin` (source line 68). -/
structure WinResult where
  winner : String
  winningCells : Line
deriving DecidableEq, Repr

/-- `checkWin(board, player)` (source lines 18-73): scan the table in order,
return the first line all of whose cells pass the test, else null. -/
def checkWin (b : JsBoard) (player : String) : Option WinResult :=
  match winningCombinations.find? (fun combo => lineMatches b player combo) with
  | some combo => some ⟨player, combo⟩
  | none => none

/-- `checkDraw(board)` (source lines 75-81): every cell of every row of every
layer is non-empty. -/
def checkDraw (b : JsBoard) : Bool :=
  b.all (fun layer => layer.all (fun row => row.all (fun cell => cell != "")))

/-- Spec-side reading of the line test: the symbol is non-empty and every
cell of the line holds exactly that symbol. -/
def lineAllEq (b : JsBoard) (p : String) (combo : Line) : Prop :=
  p ≠ "" ∧ ∀ x ∈ combo, cellAt b x.1 x.2.1 x.2.2 = some p

instance (b : JsBoard) (p : String) (combo : Line) : Decidable (lineAllEq b p combo) := by
  unfold lineAllEq; infer_instance

/-! ## Server state -/

/-- A subscript value used on a JS array: `some i` for an integer number,
`none` for any value that is not a canonical array index (a fractional
number, an absent field, an object, ...), which reads as `undefined`. -/
abbrev JsIdx := Option Int

/-- JS array subscripting `arr[i]`: out-of-range and non-index subscripts
yield `undefined` (`none`), in-range ones the element. -/
def jsArrGet {α : Type} (l : List α) : JsIdx → Option α
  | some i => if i < 0 then none else l.get? i.toNat
  | none => none

/-- Reading `board[l][r][c]` with raw message subscripts: subscripting the
`undefined` produced by an out-of-range `l` (or `r`) throws a TypeError,
embedded as `Except.error ()`. -/
def boardGet (b : JsBoard) (li ri ci : JsIdx) : Except Unit (Option String) :=
  match jsArrGet b li with
  | none => .error ()
  | some layerArr =>
    match jsArrGet layerArr ri with
    | none => .error ()
    | some rowArr => .ok (jsArrGet rowArr ci)

/-- Writing `board[l][r][c] = sym` at natural coordinates (the handler only
reaches the write after the read returned a defined cell, which forces all
three subscripts in range). -/
def boardSet (b : JsBoard) (l r c : Nat) (sym : String) : JsBoard :=
  b.set l ((b.getD l []).set r (((b.getD l []).getD r []).set c sym))

/-- `boardSet` lifted to raw subscripts; only reached with in-range
subscripts (see `boardSet`), other cases return the board unchanged. -/
def boardSetIdx (b : JsBoard) (li ri ci : JsIdx) (sym : String) : JsBoard :=
  match li, ri, ci with
  | some l, some r, some c =>
    if l < 0 ∨ r < 0 ∨ c < 0 then b else boardSet b l.toNat r.toNat c.toNat sym
  | _, _, _ => b

/-- The fresh empty board built on room creation (source lines 160, 272). -/
def emptyBoard : JsBoard :=
  List.replicate 3 (List.replicate 3 (List.replicate 3 ""))

/-- A player object (source line 170): connection handle, symbol, room code.
`pid` embeds JS object identity (each player object is distinct). -/
structure Player where
  pid : Nat
  ws : Nat
  symbol : String
  roomCode : String
deriving DecidableEq, Repr

/-- A room object (source lines 157-164). -/
structure Room where
  code : String
  players : List Player
  board : JsBoard
  currentPlayer : String
  gameStarted : Bool
  gameEnded : Bool
deriving DecidableEq, Repr

/-- JS `Map.get`. -/
def mapGet {κ α : Type} [BEq κ] (m : List (κ × α)) (k : κ) : Option α :=
  match m.find? (fun e => e.1 == k) with
  | some e => some e.2
  | none => none

/-- JS `Map.set`: overwrite in place when the key is present, else append. -/
def mapSet {κ α : Type} [BEq κ] (m : List (κ × α)) (k : κ) (v : α) : List (κ × α) :=
  match m with
  | [] => [(k, v)]
  | e :: rest => if e.1 == k then (k, v) :: rest else e :: mapSet rest k v

/-- JS `Map.delete`. -/
def mapDelete {κ α : Type} [BEq κ] (m : List (κ × α)) (k : κ) : List (κ × α) :=
  m.filter (fun e => !(e.1 == k))

/-- The whole mutable server state: the two registries (source lines 9-10),
a pid counter embedding object allocation, and the set of connections whose
`readyState` is `OPEN`. -/
structure ServerState where
  rooms : List (String × Room)
  playerConnections : List (Nat × Player)
  nextPid : Nat
  openConns : List Nat
deriving DecidableEq, Repr

/-- Outbound message shapes (the JSON objects passed to `ws.send`). -/
inductive OutMsg where
  | errMsg (message : String)
  | roomJoined (roomCode : String) (playerSymbol : String)
  | playerJoined (playerSymbol : String)
  | gameStart (currentPlayer : String)
  | moveMade (layer row col : JsIdx) (player : String) (nextPlayer : String)
  | gameOver (winner : Option String) (winningCells : Option Line)
  | playerLeft (playerSymbol : String)
  | chatMsg (from_ : String) (message : String)
deriving DecidableEq, Repr

/-- Observable actions of a handler: a `ws.send` to a connection, or the
`setTimeout` scheduling of the game-over broadcast (source lines 243-249). -/
inductive Effect where
  | send (conn : Nat) (msg : OutMsg)
  | scheduleGameOver (roomCode : String) (winner : Option String)
      (winningCells : Option Line) (delayMs : Nat)
deriving DecidableEq, Repr

/-- Parsed inbound messages; `other` is any parseable message whose `type`
is none of the five known ones. -/
inductive InMsg where
  | joinRoom (roomCode : Option String)
  | makeMove (layer row col : JsIdx)
  | newGame
  | leaveRoom
  | chatMessage (message : String)
  | other
deriving DecidableEq, Repr

/-- `broadcastToRoom(roomCode, message, excludePlayer)` (source lines 83-92):
no-op when the room is absent, else send to every player other than the
excluded object whose connection is open. -/
def broadcastToRoom (st : ServerState) (roomCode : String) (msg : OutMsg)
    (excludePlayer : Option Player) : List Effect :=
  match mapGet st.rooms roomCode with
  | none => []
  | some room =>
    (room.players.filter
      (fun q => !(excludePlayer == some q) && st.openConns.contains q.ws)).map
      (fun q => Effect.send q.ws msg)

/-- The green path of `handleJoinRoom` shared by both branches (source lines
168-197): allocate the player object, push it, bind the connection, confirm,
notify, and start the game on the second join. -/
def joinRoomFinish (st : ServerState) (ws : Nat) (roomCode : String)
    (room : Room) : ServerState × List Effect :=
  let playerSymbol := if room.players.length == 0 then "X" else "O"
  let player : Player := ⟨st.nextPid, ws, playerSymbol, roomCode⟩
  let room1 := { room with players := room.players ++ [player] }
  let st1 : ServerState :=
    { st with rooms := mapSet st.rooms roomCode room1,
              playerConnections := mapSet st.playerConnections ws player,
              nextPid := st.nextPid + 1 }
  let effs1 := [Effect.send ws (OutMsg.roomJoined roomCode playerSymbol)] ++
    broadcastToRoom st1 roomCode (OutMsg.playerJoined playerSymbol) (some player)
  if room1.players.length == 2 then
    let room2 := { room1 with gameStarted := true }
    let st2 := { st1 with rooms := mapSet st1.rooms roomCode room2 }
    (st2, effs1 ++ broadcastToRoom st2 roomCode (OutMsg.gameStart room2.currentPlayer) none)
  else
    (st1, effs1)

/-- The create-new-room branch of `handleJoinRoom` (source lines 154-166):
build a fresh room under the generated code and insert it with `rooms.set`
(which overwrites any room already stored under that code), then join. -/
def createAndJoin (st : ServerState) (ws : Nat) (genCode : String) :
    ServerState × List Effect :=
  let room : Room := ⟨genCode, [], emptyBoard, "X", false, false⟩
  joinRoomFinish { st with rooms := mapSet st.rooms genCode room } ws genCode room

/-- `handleJoinRoom` (source lines 143-198). `genCode` is the outcome of the
`Math.random()` draw inside `generateRoomCode`, passed in as an oracle. The
JS guard `roomCode && rooms.has(roomCode)` treats an absent or empty
`roomCode` as falsy. -/
def handleJoinRoom (st : ServerState) (ws : Nat) (genCode : String)
    (msgRoomCode : Option String) : ServerState × List Effect :=
  match msgRoomCode with
  | some code =>
    if code ≠ "" then
      match mapGet st.rooms code with
      | some room =>
        if room.players.length ≥ 2 then
          (st, [Effect.send ws (OutMsg.errMsg "Room is full")])
        else
          joinRoomFinish st ws code room
      | none => createAndJoin st ws genCode
    else createAndJoin st ws genCode
  | none => createAndJoin st ws genCode

/-- `handleMakeMove` (source lines 200-262). The only throwing point of the
whole message dispatch is the board read at source line 219, reached before
any state mutation or send of this handler, so the `.error` case stands for
a state-preserving TypeError. -/
def handleMakeMove (st : ServerState) (ws : Nat) (li ri ci : JsIdx) :
    Except Unit (ServerState × List Effect) :=
  match mapGet st.playerConnections ws with
  | none => .ok (st, [])
  | some player =>
    match mapGet st.rooms player.roomCode with
    | none => .ok (st, [Effect.send ws (OutMsg.errMsg "Game not active")])
    | some room =>
      if !room.gameStarted || room.gameEnded then
        .ok (st, [Effect.send ws (OutMsg.errMsg "Game not active")])
      else if room.currentPlayer != player.symbol then
        .ok (st, [Effect.send ws (OutMsg.errMsg "Not your turn")])
      else
        match boardGet room.board li ri ci with
        | .error _ => .error ()
        | .ok v =>
          if v != some "" then
            .ok (st, [Effect.send ws (OutMsg.errMsg "Cell already taken")])
          else
            let board1 := boardSetIdx room.board li ri ci player.symbol
            let winResult := checkWin board1 player.symbol
            let isDraw := winResult.isNone && checkDraw board1
            if winResult.isSome || isDraw then
              let room1 := { room with board := board1, gameEnded := true }
              let st1 := { st with rooms := mapSet st.rooms player.roomCode room1 }
              .ok (st1,
                broadcastToRoom st1 player.roomCode
                  (OutMsg.moveMade li ri ci player.symbol room1.currentPlayer) none ++
                [Effect.scheduleGameOver player.roomCode
                  (winResult.map WinResult.winner)
                  (winResult.map WinResult.winningCells) 500])
            else
              let next := if room.currentPlayer == "X" then "O" else "X"
              let room1 := { room with board := board1, currentPlayer := next }
              let st1 := { st with rooms := mapSet st.rooms player.roomCode room1 }
              .ok (st1,
                broadcastToRoom st1 player.roomCode
                  (OutMsg.moveMade li ri ci player.symbol room1.currentPlayer) none)

/-- The firing of the `setTimeout` callback scheduled at source lines
243-249: a plain broadcast of the game-over message at firing time. -/
def fireGameOver (st : ServerState) (roomCode : String) (winner : Option String)
    (cells : Option Line) : List Effect :=
  broadcastToRoom st roomCode (OutMsg.gameOver winner cells) none

/-- `handleNewGame` (source lines 264-284). -/
def handleNewGame (st : ServerState) (ws : Nat) : ServerState × List Effect :=
  match mapGet st.playerConnections ws with
  | none => (st, [])
  | some player =>
    match mapGet st.rooms player.roomCode with
    | none => (st, [])
    | some room =>
      if room.players.length < 2 then (st, [])
      else
        let room1 : Room :=
          { room with
              board := emptyBoard, currentPlayer := "X",
              gameEnded := false, gameStarted := true }
        let st1 := { st with rooms := mapSet st.rooms player.roomCode room1 }
        (st1, broadcastToRoom st1 player.roomCode
          (OutMsg.gameStart room1.currentPlayer) none)

/-- `handleChatMessage` (source lines 290-299). -/
def handleChatMessage (st : ServerState) (ws : Nat) (text : String) :
    ServerState × List Effect :=
  match mapGet st.playerConnections ws with
  | none => (st, [])
  | some player =>
    (st, broadcastToRoom st player.roomCode
      (OutMsg.chatMsg player.symbol text) none)

/-- `handleDisconnect` (source lines 301-329): remove the player from the
room, notify the remaining players, delete the room when it became empty
else pause it, and drop the session binding. -/
def handleDisconnect (st : ServerState) (ws : Nat) : ServerState × List Effect :=
  match mapGet st.playerConnections ws with
  | none => (st, [])
  | some player =>
    match mapGet st.rooms player.roomCode with
    | none =>
      ({ st with playerConnections := mapDelete st.playerConnections ws }, [])
    | some room =>
      let remaining := room.players.filter (fun p => p.ws != ws)
      let room1 := { room with players := remaining }
      let st1 := { st with rooms := mapSet st.rooms player.roomCode room1 }
      let effs := broadcastToRoom st1 player.roomCode
        (OutMsg.playerLeft player.symbol) none
      let st2 :=
        if remaining.length == 0 then
          { st1 with rooms := mapDelete st1.rooms player.roomCode }
        else
          let room2 := { room1 with gameStarted := false, gameEnded := false }
          { st1 with rooms := mapSet st1.rooms player.roomCode room2 }
      ({ st2 with playerConnections := mapDelete st2.playerConnections ws }, effs)

/-- `handleLeaveRoom` (source lines 286-288) just forwards to the
disconnect cleanup. -/
def handleLeaveRoom (st : ServerState) (ws : Nat) : ServerState × List Effect :=
  handleDisconnect st ws

/-- `handleMessage` (source lines 119-141): dispatch on the `type` field. -/
def handleMessage (st : ServerState) (ws : Nat) (genCode : String) :
    InMsg → Except Unit (ServerState × List Effect)
  | .joinRoom rc => .ok (handleJoinRoom st ws genCode rc)
  | .makeMove li ri ci => handleMakeMove st ws li ri ci
  | .newGame => .ok (handleNewGame st ws)
  | .leaveRoom => .ok (handleLeaveRoom st ws)
  | .chatMessage m => .ok (handleChatMessage st ws m)
  | .other => .ok (st, [Effect.send ws (OutMsg.errMsg "Unknown message type")])

/-- The message-event boundary of the transport (source lines 103-111): `none` stands
for a payload `JSON.parse` rejects; a TypeError escaping a handler is
caught by the same `try` and answered the same way. The handlers never
mutate state or send before their only throwing point, so the caught case
keeps the entering state. -/
def processData (st : ServerState) (ws : Nat) (genCode : String)
    (input : Option InMsg) : ServerState × List Effect :=
  match input with
  | none => (st, [Effect.send ws (OutMsg.errMsg "Invalid message format")])
  | some msg =>
    match handleMessage st ws genCode msg with
    | .ok r => r
    | .error _ => (st, [Effect.send ws (OutMsg.errMsg "Invalid message format")])

/-- Well-formedness of a board value: the 3x3x3 shape every room board has
(fresh boards are built so and `boardSet` preserves lengths). -/
def boardWellFormed (b : JsBoard) : Prop :=
  b.length = 3 ∧ ∀ la ∈ b, la.length = 3 ∧ ∀ ro ∈ la, ro.length = 3

instance (b : JsBoard) : Decidable (boardWellFormed b) := by
  unfold boardWellFormed
  infer_instance

/-- A subscript taken from a `make_move` message is a usable in-range index
exactly when it is an integer in `[0, 3)`. -/
def idxOK : JsIdx → Prop
  | some i => 0 ≤ i ∧ i < 3
  | none => False

instance (i : JsIdx) : Decidable (idxOK i) := by
  cases i <;> · unfold idxOK; infer_instance

/-! ## Concrete demonstration states (used by the witnesses below) -/

/-- The server right after start: no rooms, no bindings, three open
connections 1, 2, 3. -/
def freshServer : ServerState := ⟨[], [], 0, [1, 2, 3]⟩

/-- Connection 1 creates room AAAAAA. -/
def demoAfterJoin1 : ServerState :=
  (processData freshServer 1 "AAAAAA" (some (InMsg.joinRoom none))).1

/-- Connection 2 joins room AAAAAA; the game starts with X to move. -/
def demoActiveGame : ServerState :=
  (processData demoAfterJoin1 2 "QQQQQQ" (some (InMsg.joinRoom (some "AAAAAA")))).1

/-- A board holding X on the whole first row of layer 0 and nothing else. -/
def rowDemoBoard : JsBoard :=
  boardSet (boardSet (boardSet emptyBoard 0 0 0 "X") 0 0 1 "X") 0 0 2 "X"

/-- A room ZZZZZZ already holding two players, used to exhibit the
room-code collision overwrite. -/
def collisionRoom : Room :=
  { code := "ZZZZZZ",
    players := [⟨0, 1, "X", "ZZZZZZ"⟩, ⟨1, 2, "O", "ZZZZZZ"⟩],
    board := emptyBoard, currentPlayer := "X",
    gameStarted := true, gameEnded := false }

/-- A state whose registry holds `collisionRoom` under ZZZZZZ. -/
def collisionState : ServerState :=
  { rooms := [("ZZZZZZ", collisionRoom)],
    playerConnections :=
      [(1, ⟨0, 1, "X", "ZZZZZZ"⟩), (2, ⟨1, 2, "O", "ZZZZZZ"⟩)],
    nextPid := 2, openConns := [1, 2, 3] }

/-- Connection 1, already in room AAAAAA, issues a second `join_room` with
no code; the generator draws BBBBBB. -/
def demoDoubleJoin : ServerState :=
  (processData demoActiveGame 1 "BBBBBB" (some (InMsg.joinRoom none))).1

/-! ## Helper lemmas -/

theorem winningCombinations_length : winningCombinations.length = 49 := by decide

theorem winningCombinations_nodup : winningCombinations.Nodup := by decide

theorem winningCombinations_ne_nil : ∀ combo ∈ winningCombinations, combo ≠ [] := by decide

theorem lineMatches_iff_lineAllEq (b : JsBoard) (p : String) (combo : Line)
    (hne : combo ≠ []) : lineMatches b p combo = true ↔ lineAllEq b p combo := by
  unfold lineMatches lineAllEq
  rw [List.all_eq_true]
  constructor
  · intro h
    obtain ⟨x0, hx0⟩ := List.exists_mem_of_ne_nil combo hne
    have h1 : ∀ x ∈ combo,
        cellAt b x.1 x.2.1 x.2.2 = some p ∧ cellAt b x.1 x.2.1 x.2.2 ≠ some "" := by
      intro x hx
      have := h _ (List.mem_map_of_mem _ hx)
      simpa [Bool.and_eq_true] using this
    refine ⟨?_, fun y hy => (h1 y hy).1⟩
    intro hp
    have h2 := h1 x0 hx0
    exact h2.2 (by rw [h2.1, hp])
  · rintro ⟨hp, hall⟩ val hval
    rw [List.mem_map] at hval
    obtain ⟨x, hx, rfl⟩ := hval
    simp [hall x hx, hp]


theorem checkWin_none_iff {b : JsBoard} {p : String} :
    checkWin b p = none ↔ ∀ combo ∈ winningCombinations, ¬ lineAllEq b p combo := by
  unfold checkWin
  constructor
  · intro h
    split at h
    · exact absurd h (by simp)
    · rename_i hf
      rw [List.find?_eq_none] at hf
      intro combo hc hall
      exact hf combo hc
        ((lineMatches_iff_lineAllEq b p combo (winningCombinations_ne_nil combo hc)).mpr hall)
  · intro hall
    split
    · rename_i combo hf
      have hmat := List.find?_some hf
      have hmem := List.mem_of_find?_eq_some hf
      exact absurd
        ((lineMatches_iff_lineAllEq b p combo (winningCombinations_ne_nil combo hmem)).mp hmat)
        (hall combo hmem)
    · rfl

theorem checkWin_some_elim {b : JsBoard} {p : String} {res : WinResult}
    (h : checkWin b p = some res) :
    res.winner = p ∧ ∃ pre post,
      winningCombinations = pre ++ res.winningCells :: post ∧
      lineAllEq b p res.winningCells ∧ ∀ combo ∈ pre, ¬ lineAllEq b p combo := by
  unfold checkWin at h
  split at h
  · rename_i combo hf
    cases h
    rw [List.find?_eq_some] at hf
    obtain ⟨hpc, pre, post, hsplit, hpre⟩ := hf
    have hmemc : combo ∈ winningCombinations := by rw [hsplit]; simp
    refine ⟨rfl, pre, post, hsplit,
      (lineMatches_iff_lineAllEq b p combo (winningCombinations_ne_nil _ hmemc)).mp hpc, ?_⟩
    intro L hL hall
    have hLmem : L ∈ winningCombinations := by
      rw [hsplit]; exact List.mem_append_left _ hL
    have hfalse := hpre L hL
    rw [Bool.not_eq_true'] at hfalse
    have := (lineMatches_iff_lineAllEq b p L (winningCombinations_ne_nil _ hLmem)).mpr hall
    rw [this] at hfalse
    cases hfalse
  · cases h

theorem checkWin_eq_some_intro {b : JsBoard} {p : String} {combo : Line}
    {pre post : List Line}
    (hsplit : winningCombinations = pre ++ combo :: post)
    (hall : lineAllEq b p combo)
    (hpre : ∀ L ∈ pre, ¬ lineAllEq b p L) :
    checkWin b p = some ⟨p, combo⟩ := by
  have hmemc : combo ∈ winningCombinations := by rw [hsplit]; simp
  have hfind : winningCombinations.find? (fun L => lineMatches b p L) = some combo := by
    rw [List.find?_eq_some]
    refine ⟨(lineMatches_iff_lineAllEq b p combo (winningCombinations_ne_nil _ hmemc)).mpr hall,
      pre, post, hsplit, ?_⟩
    intro L hL
    have hLmem : L ∈ winningCombinations := by
      rw [hsplit]; exact List.mem_append_left _ hL
    rw [Bool.not_eq_true']
    by_contra hmat
    rw [Bool.not_eq_false] at hmat
    exact hpre L hL
      ((lineMatches_iff_lineAllEq b p L (winningCombinations_ne_nil _ hLmem)).mp hmat)
  unfold checkWin
  rw [hfind]

/-- C1: `checkWin(board, symbol)` scans a fixed table of exactly 49 winning
lines (9 in-layer rows, 9 in-layer columns, 6 in-layer diagonals, 9
cross-layer verticals, 12 cross-layer diagonals, 4 space diagonals) and
returns the first line in table-declared order whose 3 cells all equal the
given non-empty symbol, together with that symbol as winner; it returns
none when no such line exists. -/
theorem checkWin_scans_table :
    winningCombinations =
      inLayerRows ++ inLayerCols ++ inLayerDiags ++ crossLayerVerticals ++
        crossLayerColDiags ++ crossLayerRowDiags ++ spaceDiagonals ∧
    inLayerRows.length = 9 ∧ inLayerCols.length = 9 ∧ inLayerDiags.length = 6 ∧
    crossLayerVerticals.length = 9 ∧
    crossLayerColDiags.length + crossLayerRowDiags.length = 12 ∧
    spaceDiagonals.length = 4 ∧ winningCombinations.length = 49 ∧
    ∀ (b : JsBoard) (p : String),
      ((checkWin b p = none) ↔ ∀ combo ∈ winningCombinations, ¬ lineAllEq b p combo) ∧
      ∀ res : WinResult, checkWin b p = some res →
        res.winner = p ∧ res.winningCells ∈ winningCombinations ∧
        lineAllEq b p res.winningCells ∧
        ∃ pre post, winningCombinations = pre ++ res.winningCells :: post ∧
          ∀ combo ∈ pre, ¬ lineAllEq b p combo := by
  refine ⟨rfl, by decide, by decide, by decide, by decide, by decide, by decide,
    winningCombinations_length, ?_⟩
  intro b p
  refine ⟨checkWin_none_iff, fun res h => ?_⟩
  obtain ⟨hw, pre, post, hsplit, hall, hpre⟩ := checkWin_some_elim h
  have hmem : res.winningCells ∈ winningCombinations := by rw [hsplit]; simp
  exact ⟨hw, hmem, hall, pre, post, hsplit, hpre⟩

theorem checkWin_scans_table_witness :
    lineAllEq rowDemoBoard "X" [(0, 0, 0), (0, 0, 1), (0, 0, 2)] :=
  ((checkWin_scans_table.2.2.2.2.2.2.2.2 rowDemoBoard "X").2
    ⟨"X", [(0, 0, 0), (0, 0, 1), (0, 0, 2)]⟩ (by decide)).2.2.1

/-- C3: for every one of the 49 winning lines and every symbol, a board on
which all 3 coordinates of that line hold the symbol (any placement order
produces the same board) and no other winning line is completed makes
`checkWin` report exactly that line and that symbol. -/
theorem completed_line_reported (combo : Line) (hmem : combo ∈ winningCombinations)
    (p : String) (hp : p ≠ "") (b : JsBoard)
    (hall : ∀ x ∈ combo, cellAt b x.1 x.2.1 x.2.2 = some p)
    (hother : ∀ L ∈ winningCombinations, L ≠ combo → ¬ lineAllEq b p L) :
    checkWin b p = some ⟨p, combo⟩ := by
  obtain ⟨pre, post, hsplit⟩ := List.append_of_mem hmem
  have hnd := winningCombinations_nodup
  rw [hsplit, List.nodup_append] at hnd
  have hnotpre : combo ∉ pre := fun hc => hnd.2.2 hc (List.mem_cons_self _ _)
  refine checkWin_eq_some_intro hsplit ⟨hp, hall⟩ (fun L hL hallL => ?_)
  exact hother L (by rw [hsplit]; exact List.mem_append_left _ hL)
    (fun he => hnotpre (he ▸ hL)) hallL

theorem completed_line_reported_witness :
    checkWin rowDemoBoard "X" = some ⟨"X", [(0, 0, 0), (0, 0, 1), (0, 0, 2)]⟩ :=
  completed_line_reported [(0, 0, 0), (0, 0, 1), (0, 0, 2)] (by decide) "X"
    (by decide) rowDemoBoard (by decide) (by decide)

theorem mapGet_cons {κ α : Type} [BEq κ] (e : κ × α) (l : List (κ × α)) (k : κ) :
    mapGet (e :: l) k = if e.1 == k then some e.2 else mapGet l k := by
  by_cases h : e.1 == k <;> simp [mapGet, List.find?_cons, h]

theorem mapGet_mapSet_self {κ α : Type} [BEq κ] [LawfulBEq κ]
    (m : List (κ × α)) (k : κ) (v : α) : mapGet (mapSet m k v) k = some v := by
  induction m with
  | nil => simp [mapSet, mapGet_cons, mapGet]
  | cons e rest ih =>
    by_cases h : e.1 == k
    · simp [mapSet, h, mapGet_cons]
    · simp [mapSet, h, mapGet_cons, ih]

theorem mapGet_mapSet_ne {κ α : Type} [BEq κ] [LawfulBEq κ]
    (m : List (κ × α)) (k k2 : κ) (v : α) (hne : k2 ≠ k) :
    mapGet (mapSet m k v) k2 = mapGet m k2 := by
  have hkk2 : (k == k2) = false := by
    rw [beq_eq_false_iff_ne]
    exact fun h => hne h.symm
  induction m with
  | nil => simp [mapSet, mapGet_cons, mapGet, hkk2]
  | cons e rest ih =>
    by_cases h : e.1 == k
    · have hk : e.1 = k := by simpa using h
      simp [mapSet, h, mapGet_cons, hk, hkk2]
    · simp [mapSet, h, mapGet_cons, ih]

theorem mapGet_mapDelete_self {κ α : Type} [BEq κ] [LawfulBEq κ]
    (m : List (κ × α)) (k : κ) : mapGet (mapDelete m k) k = none := by
  induction m with
  | nil => simp [mapDelete, mapGet]
  | cons e rest ih =>
    by_cases h : e.1 == k
    · simpa [mapDelete, h] using ih
    · simpa [mapDelete, h, mapGet_cons] using ih

theorem handleDisconnect_unbound (st : ServerState) (ws : Nat)
    (h : mapGet st.playerConnections ws = none) : handleDisconnect st ws = (st, []) := by
  unfold handleDisconnect
  rw [h]

theorem disconnect_unbinds (st : ServerState) (ws : Nat) :
    mapGet (handleDisconnect st ws).1.playerConnections ws = none := by
  unfold handleDisconnect
  cases h1 : mapGet st.playerConnections ws with
  | none => simpa using h1
  | some p =>
    cases h2 : mapGet st.rooms p.roomCode with
    | none => simp [h2, mapGet_mapDelete_self]
    | some room =>
      simp only [h2]
      split <;> simp [mapGet_mapDelete_self]

/-- C8: disconnect-triggered cleanup is idempotent: running the cleanup a
second time for the same connection (for instance an explicit `leave_room`
followed by the transport close event) is a no-op that changes no state,
and the handler is a total function (it never throws). -/
theorem disconnect_idempotent (st : ServerState) (ws : Nat) :
    handleDisconnect (handleDisconnect st ws).1 ws = ((handleDisconnect st ws).1, []) ∧
    handleLeaveRoom (handleDisconnect st ws).1 ws = ((handleDisconnect st ws).1, []) := by
  have h := handleDisconnect_unbound _ _ (disconnect_unbinds st ws)
  exact ⟨h, h⟩

/-- C9: broadcasting to a room code that is no longer (or never was) in the
registry is a safe no-op: it sends nothing; in particular a pending delayed
game-over broadcast whose room was deleted before the timer fires sends
nothing (broadcasts never touch the registries at all: they only produce
send effects). -/
theorem broadcast_deleted_room_noop (st : ServerState) (roomCode : String)
    (h : mapGet st.rooms roomCode = none) :
    (∀ msg excl, broadcastToRoom st roomCode msg excl = []) ∧
    ∀ w cells, fireGameOver st roomCode w cells = [] := by
  constructor
  · intro msg excl
    unfold broadcastToRoom
    rw [h]
  · intro w cells
    unfold fireGameOver broadcastToRoom
    rw [h]

theorem broadcast_deleted_room_noop_witness :
    fireGameOver freshServer "GONE" (some "X") (some [(0, 0, 0), (1, 1, 1), (2, 2, 2)]) = [] :=
  (broadcast_deleted_room_noop freshServer "GONE" (by decide)).2 (some "X")
    (some [(0, 0, 0), (1, 1, 1), (2, 2, 2)])

theorem none_beq_some {α : Type} [BEq α] (a : α) : ((none : Option α) == some a) = false :=
  rfl

/-- C6: on disconnect or explicit leave of a bound player, the player is
removed from the room player list, a player-left event carrying the symbol
is broadcast to the remaining players, the room is deleted from the
registry exactly when its player list became empty and is otherwise kept
with `gameStarted` and `gameEnded` reset to false and the board as-is, and
the session binding of the connection is removed. -/
theorem disconnect_cleanup_behavior
    (st : ServerState) (ws : Nat) (player : Player) (room : Room)
    (hconn : mapGet st.playerConnections ws = some player)
    (hroom : mapGet st.rooms player.roomCode = some room) :
    (handleDisconnect st ws).1.playerConnections = mapDelete st.playerConnections ws ∧
    (handleDisconnect st ws).2 =
      ((room.players.filter (fun q => q.ws != ws)).filter
        (fun q => st.openConns.contains q.ws)).map
        (fun q => Effect.send q.ws (OutMsg.playerLeft player.symbol)) ∧
    (room.players.filter (fun q => q.ws != ws) = [] →
      mapGet (handleDisconnect st ws).1.rooms player.roomCode = none) ∧
    (room.players.filter (fun q => q.ws != ws) ≠ [] →
      mapGet (handleDisconnect st ws).1.rooms player.roomCode =
        some { room with players := room.players.filter (fun q => q.ws != ws),
                         gameStarted := false, gameEnded := false }) := by
  have hb : ∀ room1 : Room, room1.players = room.players.filter (fun q => q.ws != ws) →
      broadcastToRoom { st with rooms := mapSet st.rooms player.roomCode room1 }
        player.roomCode (OutMsg.playerLeft player.symbol) none =
      ((room.players.filter (fun q => q.ws != ws)).filter
        (fun q => st.openConns.contains q.ws)).map
        (fun q => Effect.send q.ws (OutMsg.playerLeft player.symbol)) := by
    intro room1 h1
    unfold broadcastToRoom
    rw [mapGet_mapSet_self]
    simp [h1, none_beq_some]
  refine ⟨?_, ?_, ?_, ?_⟩
  · simp only [handleDisconnect, hconn, hroom]
    split <;> rfl
  · simp only [handleDisconnect, hconn, hroom]
    exact hb _ rfl
  · intro hrem
    simp only [handleDisconnect, hconn, hroom]
    split
    · exact mapGet_mapDelete_self _ _
    · rename_i hcond
      rw [hrem] at hcond
      simp at hcond
  · intro hrem
    simp only [handleDisconnect, hconn, hroom]
    split
    · rename_i hcond
      simp only [beq_iff_eq, List.length_eq_zero] at hcond
      exact absurd hcond hrem
    · exact mapGet_mapSet_self _ _ _

theorem disconnect_cleanup_behavior_witness :
    (handleDisconnect demoActiveGame 1).1.playerConnections =
      mapDelete demoActiveGame.playerConnections 1 :=
  (disconnect_cleanup_behavior demoActiveGame 1 ⟨0, 1, "X", "AAAAAA"⟩
    ⟨"AAAAAA", [⟨0, 1, "X", "AAAAAA"⟩, ⟨1, 2, "O", "AAAAAA"⟩], emptyBoard, "X", true, false⟩
    (by decide) (by decide)).1


theorem jsArrGet_natCast {α : Type} (l : List α) (n : Nat) :
    jsArrGet l (some (n : Int)) = l.get? n := by
  show (if ((n : Int)) < 0 then none else l.get? ((n : Int)).toNat) = l.get? n
  rw [if_neg (not_lt.mpr (Int.natCast_nonneg n)), Int.toNat_natCast]

theorem boardGet_of_cellAt {b : JsBoard} {l r c : Nat} {v : String}
    (h : cellAt b l r c = some v) :
    boardGet b (some (l : Int)) (some (r : Int)) (some (c : Int)) = .ok (some v) := by
  unfold cellAt at h
  cases hb : b.get? l with
  | none => rw [hb] at h; simp at h
  | some la =>
    rw [hb] at h
    simp only [Option.some_bind] at h
    cases hla : la.get? r with
    | none => rw [hla] at h; simp at h
    | some ro =>
      rw [hla] at h
      simp only [Option.some_bind] at h
      simp only [boardGet, jsArrGet_natCast]
      rw [hb]
      dsimp only
      rw [hla]
      dsimp only
      rw [h]

theorem boardSetIdx_natCast (b : JsBoard) (l r c : Nat) (sym : String) :
    boardSetIdx b (some (l : Int)) (some (r : Int)) (some (c : Int)) sym =
      boardSet b l r c sym := by
  have hneg : ¬((l : Int) < 0 ∨ (r : Int) < 0 ∨ (c : Int) < 0) := by
    push_neg
    exact ⟨Int.natCast_nonneg l, Int.natCast_nonneg r, Int.natCast_nonneg c⟩
  simp [boardSetIdx, hneg, Int.toNat_natCast]

theorem broadcast_two_players (st : ServerState) (code : String) (room : Room)
    (msg : OutMsg) (q1 q2 : Player)
    (hroom : mapGet st.rooms code = some room)
    (hplayers : room.players = [q1, q2])
    (ho1 : st.openConns.contains q1.ws = true)
    (ho2 : st.openConns.contains q2.ws = true) :
    broadcastToRoom st code msg none = [Effect.send q1.ws msg, Effect.send q2.ws msg] := by
  have h1 : q1.ws ∈ st.openConns := by simpa using ho1
  have h2 : q2.ws ∈ st.openConns := by simpa using ho2
  simp [broadcastToRoom, hroom, hplayers, none_beq_some, h1, h2]

/-- C2: a valid move by the player whose turn it is on an active game and an
empty in-range cell places the symbol of that player at (layer,row,col); win
or full-board draw `gameEnded` becomes true, `currentPlayer` is not
advanced, the move-made broadcast to both players carries the pre-move
`currentPlayer` as `nextPlayer` and is followed by the scheduled (500 ms)
game-over broadcast carrying the winner symbol and the 3 winning
coordinates (or null and null for a draw); otherwise `currentPlayer` is
advanced to the other symbol and the move-made broadcast carries the new
`currentPlayer` as `nextPlayer`. -/
theorem makeMove_valid_move_behavior
    (st : ServerState) (ws : Nat) (player : Player) (room : Room)
    (l r c : Nat) (q1 q2 : Player) (b1 : JsBoard)
    (hconn : mapGet st.playerConnections ws = some player)
    (hroom : mapGet st.rooms player.roomCode = some room)
    (hstart : room.gameStarted = true) (hend : room.gameEnded = false)
    (hturn : room.currentPlayer = player.symbol)
    (hempty : cellAt room.board l r c = some "")
    (hplayers : room.players = [q1, q2])
    (ho1 : st.openConns.contains q1.ws = true)
    (ho2 : st.openConns.contains q2.ws = true)
    (hb1 : b1 = boardSet room.board l r c player.symbol) :
    (checkWin b1 player.symbol ≠ none ∨ checkDraw b1 = true →
      ∀ room1 : Room, room1 = { room with board := b1, gameEnded := true } →
      ∀ m1 : OutMsg, m1 = OutMsg.moveMade (some (l : Int)) (some (r : Int))
          (some (c : Int)) player.symbol room.currentPlayer →
      handleMakeMove st ws (some (l : Int)) (some (r : Int)) (some (c : Int)) = .ok
        ({ st with rooms := mapSet st.rooms player.roomCode room1 },
         [Effect.send q1.ws m1, Effect.send q2.ws m1,
          Effect.scheduleGameOver player.roomCode
            ((checkWin b1 player.symbol).map WinResult.winner)
            ((checkWin b1 player.symbol).map WinResult.winningCells) 500])) ∧
    (checkWin b1 player.symbol = none ∧ checkDraw b1 = false →
      ∀ room2 : Room, room2 = { room with board := b1, currentPlayer := if room.currentPlayer == "X" then "O" else "X" } →
      ∀ m2 : OutMsg, m2 = OutMsg.moveMade (some (l : Int)) (some (r : Int))
          (some (c : Int)) player.symbol
          (if room.currentPlayer == "X" then "O" else "X") →
      handleMakeMove st ws (some (l : Int)) (some (r : Int)) (some (c : Int)) = .ok
        ({ st with rooms := mapSet st.rooms player.roomCode room2 },
         [Effect.send q1.ws m2, Effect.send q2.ws m2])) := by
  subst hb1
  have hread := boardGet_of_cellAt hempty
  have hbc : ∀ (room1 : Room) (msg : OutMsg), room1.players = [q1, q2] →
      broadcastToRoom { st with rooms := mapSet st.rooms player.roomCode room1 }
        player.roomCode msg none = [Effect.send q1.ws msg, Effect.send q2.ws msg] :=
    fun room1 msg hps =>
      broadcast_two_players _ player.roomCode room1 msg q1 q2
        (mapGet_mapSet_self _ _ _) hps ho1 ho2
  constructor
  · intro hterm room1 hroom1 m1 hm1
    subst hroom1
    subst hm1
    have hcond : ((checkWin (boardSet room.board l r c player.symbol) player.symbol).isSome
        || ((checkWin (boardSet room.board l r c player.symbol) player.symbol).isNone &&
            checkDraw (boardSet room.board l r c player.symbol))) = true := by
      rcases hterm with h | h
      · cases hw : checkWin (boardSet room.board l r c player.symbol) player.symbol with
        | none => exact absurd hw h
        | some res => simp [hw]
      · cases hw : checkWin (boardSet room.board l r c player.symbol) player.symbol with
        | none => simp [hw, h]
        | some res => simp [hw]
    simp only [handleMakeMove, hconn, hroom, hstart, hend, hturn, hread,
      boardSetIdx_natCast, Bool.not_true, Bool.false_or, bne_self_eq_false,
      if_false, hcond, if_true]
    rw [if_neg Bool.false_ne_true, if_neg Bool.false_ne_true, if_neg Bool.false_ne_true,
      hbc { room with board := boardSet room.board l r c player.symbol, currentPlayer := player.symbol, gameStarted := true, gameEnded := true } _ hplayers]
    rfl
  · intro hcont room2 hroom2 m2 hm2
    subst hroom2
    subst hm2
    have hcond : ((checkWin (boardSet room.board l r c player.symbol) player.symbol).isSome
        || ((checkWin (boardSet room.board l r c player.symbol) player.symbol).isNone &&
            checkDraw (boardSet room.board l r c player.symbol))) = false := by
      simp [hcont.1, hcont.2]
    simp only [handleMakeMove, hconn, hroom, hstart, hend, hturn, hread,
      boardSetIdx_natCast, Bool.not_true, Bool.false_or, bne_self_eq_false,
      if_false, hcond]
    rw [if_neg Bool.false_ne_true, if_neg Bool.false_ne_true, if_neg Bool.false_ne_true,
      if_neg Bool.false_ne_true,
      hbc { room with board := boardSet room.board l r c player.symbol, currentPlayer := if player.symbol == "X" then "O" else "X", gameStarted := true, gameEnded := false } _ hplayers]

theorem makeMove_valid_move_behavior_witness :
    handleMakeMove demoActiveGame 1 (some ((0 : Nat) : Int)) (some ((0 : Nat) : Int)) (some ((0 : Nat) : Int)) = .ok
      ({ demoActiveGame with rooms := mapSet demoActiveGame.rooms "AAAAAA" ⟨"AAAAAA", [⟨0, 1, "X", "AAAAAA"⟩, ⟨1, 2, "O", "AAAAAA"⟩], boardSet emptyBoard 0 0 0 "X", "O", true, false⟩ },
       [Effect.send 1 (OutMsg.moveMade (some ((0 : Nat) : Int)) (some ((0 : Nat) : Int)) (some ((0 : Nat) : Int)) "X" "O"),
        Effect.send 2 (OutMsg.moveMade (some ((0 : Nat) : Int)) (some ((0 : Nat) : Int)) (some ((0 : Nat) : Int)) "X" "O")]) :=
  (makeMove_valid_move_behavior demoActiveGame 1 ⟨0, 1, "X", "AAAAAA"⟩
    ⟨"AAAAAA", [⟨0, 1, "X", "AAAAAA"⟩, ⟨1, 2, "O", "AAAAAA"⟩], emptyBoard, "X", true, false⟩
    0 0 0 ⟨0, 1, "X", "AAAAAA"⟩ ⟨1, 2, "O", "AAAAAA"⟩ (boardSet emptyBoard 0 0 0 "X")
    (by decide) (by decide) rfl rfl rfl (by decide) rfl (by decide) (by decide) rfl).2
    (by decide)
    ⟨"AAAAAA", [⟨0, 1, "X", "AAAAAA"⟩, ⟨1, 2, "O", "AAAAAA"⟩], boardSet emptyBoard 0 0 0 "X", "O", true, false⟩
    (by decide)
    (OutMsg.moveMade (some ((0 : Nat) : Int)) (some ((0 : Nat) : Int)) (some ((0 : Nat) : Int)) "X" "O")
    (by decide)

theorem mem_broadcast {st : ServerState} {code : String} {msg : OutMsg}
    {excl : Option Player} {e : Effect} (h : e ∈ broadcastToRoom st code msg excl) :
    ∃ q : Player, e = Effect.send q.ws msg := by
  unfold broadcastToRoom at h
  split at h
  · simp at h
  · rw [List.mem_map] at h
    obtain ⟨q, _, rfl⟩ := h
    exact ⟨q, rfl⟩

theorem errMsg_mem_broadcast_false {st : ServerState} {code : String} {msg : OutMsg}
    {excl : Option Player} {c : Nat} {m : String}
    (hne : ∀ s, msg ≠ OutMsg.errMsg s)
    (h : Effect.send c (OutMsg.errMsg m) ∈ broadcastToRoom st code msg excl) : False := by
  obtain ⟨q, hq⟩ := mem_broadcast h
  injection hq with h1 h2
  exact hne m h2.symm

theorem errMsg_not_in_joinFinish {st : ServerState} {ws : Nat} {code : String}
    {room : Room} {c : Nat} {m : String} :
    Effect.send c (OutMsg.errMsg m) ∉ (joinRoomFinish st ws code room).2 := by
  intro h
  simp only [joinRoomFinish] at h
  split at h <;> split at h
  · rcases List.mem_append.mp h with h1 | h1
    · rcases List.mem_append.mp h1 with h2 | h2
      · simp at h2
      · exact errMsg_mem_broadcast_false (fun s => by simp) h2
    · exact errMsg_mem_broadcast_false (fun s => by simp) h1
  · rcases List.mem_append.mp h with h1 | h1
    · simp at h1
    · exact errMsg_mem_broadcast_false (fun s => by simp) h1
  · rcases List.mem_append.mp h with h1 | h1
    · rcases List.mem_append.mp h1 with h2 | h2
      · simp at h2
      · exact errMsg_mem_broadcast_false (fun s => by simp) h2
    · exact errMsg_mem_broadcast_false (fun s => by simp) h1
  · rcases List.mem_append.mp h with h1 | h1
    · simp at h1
    · exact errMsg_mem_broadcast_false (fun s => by simp) h1

theorem errMsg_not_in_createAndJoin {st : ServerState} {ws : Nat} {gen : String}
    {c : Nat} {m : String} :
    Effect.send c (OutMsg.errMsg m) ∉ (createAndJoin st ws gen).2 :=
  errMsg_not_in_joinFinish

theorem errMsg_not_in_newGame {st : ServerState} {ws : Nat} {c : Nat} {m : String} :
    Effect.send c (OutMsg.errMsg m) ∉ (handleNewGame st ws).2 := by
  intro h
  unfold handleNewGame at h
  split at h
  · simp at h
  · split at h
    · simp at h
    · split at h
      · simp at h
      · exact errMsg_mem_broadcast_false (fun s => by simp) h

theorem errMsg_not_in_chat {st : ServerState} {ws : Nat} {t : String}
    {c : Nat} {m : String} :
    Effect.send c (OutMsg.errMsg m) ∉ (handleChatMessage st ws t).2 := by
  intro h
  unfold handleChatMessage at h
  split at h
  · simp at h
  · exact errMsg_mem_broadcast_false (fun s => by simp) h

theorem errMsg_not_in_disconnect {st : ServerState} {ws : Nat} {c : Nat} {m : String} :
    Effect.send c (OutMsg.errMsg m) ∉ (handleDisconnect st ws).2 := by
  intro h
  unfold handleDisconnect at h
  split at h
  · simp at h
  · split at h
    · simp at h
    · exact errMsg_mem_broadcast_false (fun s => by simp) h

theorem joinRoom_errMsg_cases (st : ServerState) (ws : Nat) (gen : String)
    (rc : Option String) :
    (∀ c m, Effect.send c (OutMsg.errMsg m) ∉ (handleJoinRoom st ws gen rc).2) ∨
    handleJoinRoom st ws gen rc = (st, [Effect.send ws (OutMsg.errMsg "Room is full")]) := by
  cases rc with
  | none => exact Or.inl (fun c m => errMsg_not_in_createAndJoin)
  | some code =>
    by_cases hc : code ≠ ""
    · cases hr : mapGet st.rooms code with
      | some room =>
        by_cases hfull : room.players.length ≥ 2
        · right
          simp only [handleJoinRoom]
          rw [if_pos hc, hr]
          dsimp only
          rw [if_pos hfull]
        · left
          intro c m
          simp only [handleJoinRoom]
          rw [if_pos hc, hr]
          dsimp only
          rw [if_neg hfull]
          exact errMsg_not_in_joinFinish
      | none =>
        left
        intro c m
        simp only [handleJoinRoom]
        rw [if_pos hc, hr]
        exact errMsg_not_in_createAndJoin
    · left
      intro c m
      simp only [handleJoinRoom]
      rw [if_neg hc]
      exact errMsg_not_in_createAndJoin

theorem makeMove_errMsg_cases (st : ServerState) (ws : Nat) (li ri ci : JsIdx) :
    handleMakeMove st ws li ri ci = .error () ∨
    (∃ st2 effs, handleMakeMove st ws li ri ci = .ok (st2, effs) ∧
      ∀ c m, Effect.send c (OutMsg.errMsg m) ∉ effs) ∨
    (∃ emsg, handleMakeMove st ws li ri ci = .ok (st, [Effect.send ws (OutMsg.errMsg emsg)])) := by
  unfold handleMakeMove
  split
  · exact Or.inr (Or.inl ⟨st, [], rfl, fun c m => by simp⟩)
  · split
    · exact Or.inr (Or.inr ⟨"Game not active", rfl⟩)
    · split
      · exact Or.inr (Or.inr ⟨"Game not active", rfl⟩)
      · split
        · exact Or.inr (Or.inr ⟨"Not your turn", rfl⟩)
        · split
          · exact Or.inl rfl
          · split
            · exact Or.inr (Or.inr ⟨"Cell already taken", rfl⟩)
            · dsimp only
              split
              · refine Or.inr (Or.inl ⟨_, _, rfl, fun c m hmem => ?_⟩)
                rcases List.mem_append.mp hmem with h1 | h1
                · exact errMsg_mem_broadcast_false (fun s => by simp) h1
                · simp at h1
              · refine Or.inr (Or.inl ⟨_, _, rfl, fun c m hmem => ?_⟩)
                exact errMsg_mem_broadcast_false (fun s => by simp) hmem

theorem singleton_send_elim {c ws : Nat} {m s : String}
    (h : Effect.send c (OutMsg.errMsg m) ∈ [Effect.send ws (OutMsg.errMsg s)]) :
    c = ws ∧ m = s := by
  simp only [List.mem_singleton] at h
  injection h with h1 h2
  injection h2 with h3
  exact ⟨h1, h3⟩

theorem process_singleton_conclude {st : ServerState} {ws : Nat} {gen : String}
    {input : Option InMsg} {c : Nat} {m s : String}
    (heq : processData st ws gen input = (st, [Effect.send ws (OutMsg.errMsg s)]))
    (h : Effect.send c (OutMsg.errMsg m) ∈ (processData st ws gen input).2) :
    c = ws ∧ (processData st ws gen input).1 = st ∧
    (processData st ws gen input).2 = [Effect.send ws (OutMsg.errMsg m)] := by
  rw [heq] at h
  obtain ⟨h1, h3⟩ := singleton_send_elim h
  subst h1
  subst h3
  rw [heq]
  exact ⟨rfl, rfl, rfl⟩

/-- C4: every protocol error (malformed payload, unknown message type) and
every game-rule violation (room full, game not active, not your turn, cell
already taken) produces exactly one error reply sent only to the offending
sender, leaves all shared state unmodified, and is never broadcast to the
other player: any error send appearing in the output of a message-
processing step is the entire output, addressed to the sender, with the
state returned unchanged. -/
theorem error_replies_local_and_pure
    (st : ServerState) (ws : Nat) (gen : String) (input : Option InMsg)
    (c : Nat) (m : String)
    (h : Effect.send c (OutMsg.errMsg m) ∈ (processData st ws gen input).2) :
    c = ws ∧ (processData st ws gen input).1 = st ∧
    (processData st ws gen input).2 = [Effect.send ws (OutMsg.errMsg m)] := by
  cases input with
  | none => exact process_singleton_conclude rfl h
  | some msg =>
    cases msg with
    | joinRoom rc =>
      have hpd : processData st ws gen (some (InMsg.joinRoom rc)) =
          handleJoinRoom st ws gen rc := rfl
      rcases joinRoom_errMsg_cases st ws gen rc with hno | heq
      · rw [hpd] at h
        exact absurd h (hno c m)
      · exact process_singleton_conclude (by rw [hpd, heq]) h
    | makeMove li ri ci =>
      rcases makeMove_errMsg_cases st ws li ri ci with herr | hmid | hlast
      · exact @process_singleton_conclude st ws gen (some (InMsg.makeMove li ri ci)) c m
          "Invalid message format" (by simp only [processData, handleMessage, herr]) h
      · obtain ⟨st2, effs, hok, hno⟩ := hmid
        have hpd : processData st ws gen (some (InMsg.makeMove li ri ci)) = (st2, effs) := by
          simp only [processData, handleMessage, hok]
        rw [hpd] at h
        exact absurd h (hno c m)
      · obtain ⟨emsg, hok⟩ := hlast
        exact @process_singleton_conclude st ws gen (some (InMsg.makeMove li ri ci)) c m
          emsg (by simp only [processData, handleMessage, hok]) h
    | newGame =>
      have hpd : processData st ws gen (some InMsg.newGame) = handleNewGame st ws := rfl
      rw [hpd] at h
      exact absurd h errMsg_not_in_newGame
    | leaveRoom =>
      have hpd : processData st ws gen (some InMsg.leaveRoom) = handleDisconnect st ws := rfl
      rw [hpd] at h
      exact absurd h errMsg_not_in_disconnect
    | chatMessage t =>
      have hpd : processData st ws gen (some (InMsg.chatMessage t)) =
          handleChatMessage st ws t := rfl
      rw [hpd] at h
      exact absurd h errMsg_not_in_chat
    | other => exact process_singleton_conclude rfl h

theorem error_replies_local_and_pure_witness :
    (processData freshServer 1 "GGGGGG" (some InMsg.other)).1 = freshServer ∧
    (processData freshServer 1 "GGGGGG" (some InMsg.other)).2 =
      [Effect.send 1 (OutMsg.errMsg "Unknown message type")] :=
  ⟨(error_replies_local_and_pure freshServer 1 "GGGGGG" (some InMsg.other) 1
      "Unknown message type" (by decide)).2.1,
   (error_replies_local_and_pure freshServer 1 "GGGGGG" (some InMsg.other) 1
      "Unknown message type" (by decide)).2.2⟩

theorem jsArrGet_none_of_bad {α : Type} (l : List α) (hlen : l.length = 3)
    {i : JsIdx} (h : ¬ idxOK i) : jsArrGet l i = none := by
  cases i with
  | none => rfl
  | some x =>
    unfold idxOK at h
    show (if x < 0 then none else l.get? x.toNat) = none
    by_cases hx : x < 0
    · rw [if_pos hx]
    · rw [if_neg hx]
      rw [not_lt] at hx
      have h3 : (3 : Int) ≤ x := by
        by_contra hlt
        rw [not_le] at hlt
        exact h ⟨hx, hlt⟩
      apply List.get?_eq_none.mpr
      rw [hlen]
      omega

theorem jsArrGet_ok_exists {α : Type} (l : List α) (hlen : l.length = 3)
    {i : JsIdx} (h : idxOK i) : ∃ x, jsArrGet l i = some x ∧ x ∈ l := by
  cases i with
  | none => exact absurd h (by simp [idxOK])
  | some n =>
    obtain ⟨h0, h3⟩ := h
    have hb : n.toNat < l.length := by omega
    refine ⟨l.get ⟨n.toNat, hb⟩, ?_, List.get_mem l _ _⟩
    show (if n < 0 then none else l.get? n.toNat) = some (l.get ⟨n.toNat, hb⟩)
    rw [if_neg (not_lt.mpr h0)]
    exact List.get?_eq_get hb

/-- C10: a `make_move` whose layer, row or col is outside `[0,3)` or not an
integer index, sent by the player whose turn it is on an active game, leaves
the board and all room state unchanged: the handler either rejects it with
"Cell already taken" (the out-of-range col reads as `undefined`, which is
not the empty-cell value) or the indexing TypeError is caught at the
message boundary and answered with "Invalid message format"; no symbol is
ever placed outside the 3x3x3 grid. -/
theorem out_of_range_move_rejected
    (st : ServerState) (ws : Nat) (gen : String) (player : Player) (room : Room)
    (li ri ci : JsIdx)
    (hconn : mapGet st.playerConnections ws = some player)
    (hroom : mapGet st.rooms player.roomCode = some room)
    (hstart : room.gameStarted = true) (hend : room.gameEnded = false)
    (hturn : room.currentPlayer = player.symbol)
    (hwf : boardWellFormed room.board)
    (hbad : ¬(idxOK li ∧ idxOK ri ∧ idxOK ci)) :
    processData st ws gen (some (InMsg.makeMove li ri ci)) =
      (st, [Effect.send ws (OutMsg.errMsg
        (if idxOK li ∧ idxOK ri then "Cell already taken" else "Invalid message format"))]) := by
  have hred : ∀ v : Option String, boardGet room.board li ri ci = .ok v → v ≠ some "" →
      handleMakeMove st ws li ri ci =
        .ok (st, [Effect.send ws (OutMsg.errMsg "Cell already taken")]) := by
    intro v hbg hv
    simp only [handleMakeMove, hconn, hroom, hstart, hend, hturn, Bool.not_true,
      Bool.false_or, bne_self_eq_false, hbg]
    rw [if_neg Bool.false_ne_true, if_neg Bool.false_ne_true,
      if_pos (bne_iff_ne.mpr hv)]
  have herr2 : boardGet room.board li ri ci = .error () →
      handleMakeMove st ws li ri ci = .error () := by
    intro hbg
    simp only [handleMakeMove, hconn, hroom, hstart, hend, hturn, Bool.not_true,
      Bool.false_or, bne_self_eq_false, hbg]
    rw [if_neg Bool.false_ne_true, if_neg Bool.false_ne_true]
  by_cases h1 : idxOK li
  · by_cases h2 : idxOK ri
    · have h3 : ¬ idxOK ci := fun hc => hbad ⟨h1, h2, hc⟩
      obtain ⟨la, hla, hlamem⟩ := jsArrGet_ok_exists room.board hwf.1 h1
      obtain ⟨hlal, hrows⟩ := hwf.2 la hlamem
      obtain ⟨ro, hro, hromem⟩ := jsArrGet_ok_exists la hlal h2
      have hbg : boardGet room.board li ri ci = .ok none := by
        unfold boardGet
        rw [hla]
        dsimp only
        rw [hro]
        dsimp only
        rw [jsArrGet_none_of_bad ro (hrows ro hromem) h3]
      rw [if_pos ⟨h1, h2⟩]
      have hmm := hred none hbg (by simp)
      simp only [processData, handleMessage, hmm]
    · obtain ⟨la, hla, hlamem⟩ := jsArrGet_ok_exists room.board hwf.1 h1
      have hbg : boardGet room.board li ri ci = .error () := by
        unfold boardGet
        rw [hla]
        dsimp only
        rw [jsArrGet_none_of_bad la (hwf.2 la hlamem).1 h2]
      rw [if_neg (fun hc => h2 hc.2)]
      have hmm := herr2 hbg
      simp only [processData, handleMessage, hmm]
  · have hbg : boardGet room.board li ri ci = .error () := by
      unfold boardGet
      rw [jsArrGet_none_of_bad room.board hwf.1 h1]
    rw [if_neg (fun hc => h1 hc.1)]
    have hmm := herr2 hbg
    simp only [processData, handleMessage, hmm]

theorem out_of_range_move_rejected_witness :
    processData demoActiveGame 1 "GGGGGG" (some (InMsg.makeMove (some 0) (some 0) (some 5))) =
      (demoActiveGame, [Effect.send 1 (OutMsg.errMsg
        (if idxOK (some 0) ∧ idxOK (some 0) then "Cell already taken" else "Invalid message format"))]) :=
  out_of_range_move_rejected demoActiveGame 1 "GGGGGG" ⟨0, 1, "X", "AAAAAA"⟩
    ⟨"AAAAAA", [⟨0, 1, "X", "AAAAAA"⟩, ⟨1, 2, "O", "AAAAAA"⟩], emptyBoard, "X", true, false⟩
    (some 0) (some 0) (some 5) (by decide) (by decide) rfl rfl rfl (by decide) (by decide)

/-- C5 (divergence witness): the registry holds an active room ZZZZZZ with
two players; a client joins with no code while the generator happens to
draw the same string ZZZZZZ; `rooms.set` then replaces the existing room
with the fresh one (the new room holds only the new player), because
`generateRoomCode` is never checked against the registry and nothing
regenerates on collision. -/
theorem roomCode_collision_overwrites :
    (mapGet collisionState.rooms "ZZZZZZ").map (fun rm => rm.players.length) = some 2 ∧
    (mapGet (processData collisionState 3 "ZZZZZZ"
        (some (InMsg.joinRoom none))).1.rooms "ZZZZZZ").map Room.players =
      some [⟨2, 3, "X", "ZZZZZZ"⟩] := by
  decide

/-- C7 (counterexample): connection 1 is a player of room AAAAAA; it then
issues a second `join_room` with no code, creating room BBBBBB. Afterwards
connection 1 appears in the player lists of BOTH rooms, while its session
binding names BBBBBB: a bound connection does not appear in the player list
of at most one room. -/
theorem double_join_two_rooms :
    (mapGet demoDoubleJoin.rooms "AAAAAA").map (fun rm => rm.players.map Player.ws) =
      some [1, 2] ∧
    (mapGet demoDoubleJoin.rooms "BBBBBB").map (fun rm => rm.players.map Player.ws) =
      some [1] ∧
    (mapGet demoDoubleJoin.playerConnections 1).map Player.roomCode = some "BBBBBB" := by
  decide

/-- C7 (amended): the session registry keeps exactly one binding per
connection, and a second `join_room` into a fresh room overwrites that
binding to name the new room; but the former room registry entry is left
untouched, so the connection stays in the former room player list and can
therefore sit in two rooms at once. -/
theorem second_join_overwrites_binding
    (st : ServerState) (ws : Nat) (oldP : Player) (genCode : String)
    (hconn : mapGet st.playerConnections ws = some oldP)
    (hfresh : mapGet st.rooms genCode = none)
    (hne : oldP.roomCode ≠ genCode) :
    mapGet (handleJoinRoom st ws genCode none).1.rooms oldP.roomCode =
      mapGet st.rooms oldP.roomCode ∧
    mapGet (handleJoinRoom st ws genCode none).1.playerConnections ws =
      some ⟨st.nextPid, ws, "X", genCode⟩ ∧
    (mapGet (handleJoinRoom st ws genCode none).1.rooms genCode).map Room.players =
      some [⟨st.nextPid, ws, "X", genCode⟩] := by
  have h1 : (handleJoinRoom st ws genCode none).1.rooms =
      mapSet (mapSet st.rooms genCode ⟨genCode, [], emptyBoard, "X", false, false⟩)
        genCode ⟨genCode, [] ++ [⟨st.nextPid, ws, "X", genCode⟩], emptyBoard, "X", false, false⟩ :=
    rfl
  have h2 : (handleJoinRoom st ws genCode none).1.playerConnections =
      mapSet st.playerConnections ws ⟨st.nextPid, ws, "X", genCode⟩ := rfl
  refine ⟨?_, ?_, ?_⟩
  · rw [h1, mapGet_mapSet_ne _ _ _ _ hne, mapGet_mapSet_ne _ _ _ _ hne]
  · rw [h2, mapGet_mapSet_self]
  · rw [h1, mapGet_mapSet_self]
    rfl

theorem second_join_overwrites_binding_witness :
    mapGet (handleJoinRoom demoActiveGame 1 "BBBBBB" none).1.playerConnections 1 =
      some ⟨2, 1, "X", "BBBBBB"⟩ :=
  (second_join_overwrites_binding demoActiveGame 1 ⟨0, 1, "X", "AAAAAA"⟩ "BBBBBB"
    (by decide) (by decide) (by decide)).2.1
